import Mathlib

/-!
Verification development for the tensor_beasts world engine
(src/tensor_beasts/world.py). Grids model single feature channels of the
H×W×C uint8 world tensor as total functions on integer coordinates; all
rules are translated from World.update, World.move, World.eat, World.grow,
World.germinate, World.diffuse_scent and World.update_id. The helper module
tensor_beasts.util is not part of the sources; the few helpers the rules
need (saturating arithmetic, the gradient direction choice, the directional
clearance kernels, the diffusion stencil) are modelled from the
specification and are marked as such in their doc comments.
-/

/-- A grid is one feature channel of the world tensor: a total function from
integer coordinates to the uint8 cell value (kept as Nat; boundary behaviour
is made explicit by the readers below). -/
abbrev Grid := Int → Int → Nat

/-- In-bounds predicate for an H×W grid. -/
abbrev inBoundsP (H W : Nat) (i j : Int) : Prop :=
  0 ≤ i ∧ i < (H : Int) ∧ 0 ≤ j ∧ j < (W : Int)

/-- Read a grid value with an explicit constant boundary fill, mirroring
correlation with mode constant and the given fill value. -/
def readC (g : Grid) (H W : Nat) (c : Nat) (i j : Int) : Nat :=
  if inBoundsP H W i j then g i j else c

/-- Modelled from the spec: util.safe_add is not under src; per section 4.1
it is elementwise saturating addition clamped to the uint8 range. -/
def satAdd (a b : Nat) : Nat := min (a + b) 255

/-- Modelled from the spec: util.safe_sub is not under src; per section 4.1
it is elementwise saturating subtraction clamped at zero, which on Nat is
truncated subtraction. -/
def satSub (a b : Nat) : Nat := a - b

/-- Plain torch uint8 additions (`x + 1`, `+= 1`) wrap modulo 256. -/
def wrap8 (n : Nat) : Nat := n % 256

/-- World.update_id (world.py lines 153-157): where id_0 is 255, increment
id_1 in place; the increment is a plain uint8 add, hence wraps modulo 256.
The function returns the updated id_1 channel. -/
def update_id (id0 id1 : Grid) : Grid :=
  fun i j => if id0 i j = 255 then wrap8 (id1 i j + 1) else id1 i j

/-- World.eat (world.py lines 428-434), eaten side: saturating subtraction of
eat_max wherever the eater is present. -/
def eat_eaten (eaterE eatenE : Grid) (eatMax : Nat) : Grid :=
  fun i j => satSub (eatenE i j) (if 0 < eaterE i j then eatMax else 0)

/-- World.eat, eater side: delta is what the saturating subtraction actually
removed, and the eater is credited delta divided by the efficiency loss,
saturating. -/
def eat_eater (eaterE eatenE : Grid) (eatMax lossDiv : Nat) : Grid :=
  fun i j =>
    satAdd (eaterE i j) ((eatenE i j - eat_eaten eaterE eatenE eatMax i j) / lossDiv)

/-- World.germinate (world.py lines 436-444), germination mask: bitwise
conjunction of the seed flags, the absence of plant energy and the
germination random draw hitting zero. -/
def germMask (seeds pe : Grid) (odds : Nat) (rand : Grid) : Grid :=
  fun i j =>
    Nat.land (Nat.land (seeds i j) (if 0 < pe i j then 0 else 1))
      (if rand i j % odds = 0 then 1 else 0)

/-- World.germinate, plant-energy side: saturating add of the germination
mask. -/
def germinate_pe (seeds pe : Grid) (odds : Nat) (rand : Grid) : Grid :=
  fun i j => satAdd (pe i j) (germMask seeds pe odds rand i j)

/-- World.germinate, seed side: saturating subtraction of the germination
mask, clearing the flag exactly at germinating cells. -/
def germinate_seeds (seeds pe : Grid) (odds : Nat) (rand : Grid) : Grid :=
  fun i j => satSub (seeds i j) (germMask seeds pe odds rand i j)

/-- World.grow (world.py lines 446-452): a cell with plant energy gains one
unit, saturating, when the saturating sum of energy and fertility is at most
the growth draw and the crowding draw is at least the crowding value. -/
def grow (pe : Grid) (growthOdds : Nat) (crowding : Grid) (crowdingOdds : Nat)
    (fert rand : Grid) : Grid :=
  fun i j =>
    satAdd (pe i j)
      (if 0 < pe i j ∧ satAdd (pe i j) (fert i j) ≤ rand i j % growthOdds
          ∧ crowding i j ≤ rand i j % crowdingOdds
       then 1 else 0)

/-- Plant phase of World.update (world.py lines 216-233): growth, seeding and
germination all read the single random byte field drawn once for the tick.
The crowding field is taken as an input (its correlation kernel lives in the
missing util module). Returns the plant energy and seed grids. -/
def plantPhase (pe seeds crowd fert rand : Grid)
    (godds codds sodds gerodds : Nat) : Grid × Grid :=
  let pe1 := grow pe godds crowd codds fert rand
  let seeds1 : Grid := fun i j =>
    Nat.lor (seeds i j) (if rand i j % sodds < crowd i j then 1 else 0)
  (germinate_pe seeds1 pe1 gerodds rand, germinate_seeds seeds1 pe1 gerodds rand)

/-- Largest k at most fuel with k * k at most n, by downward search. -/
def isqrtAux (n : Nat) : Nat → Nat
  | 0 => 0
  | k + 1 => if (k + 1) * (k + 1) ≤ n then k + 1 else isqrtAux n k

/-- Truncated integer square root, adequate for the uint8 world: inputs here
are averages of squared bytes, so they never exceed 255 * 255 and the result
never exceeds 255 (the cast back to uint8 clamps there anyway). -/
def isqrt (n : Nat) : Nat := isqrtAux n (min n 255)

/-- Modelled from the spec: util.generate_diffusion_kernel and
util.torch_correlate_3d are not under src; per sections 4.1 and 4.2 one
diffusion pass squares the scent field, applies a fixed isotropic
Gaussian-like stencil (here weight 4/8 at the center and 1/8 at each axis
neighbor, constant-zero boundary) and truncates the square root to an
integer. -/
def diffusePass (H W : Nat) (s : Grid) : Grid :=
  fun i j =>
    isqrt ((4 * readC s H W 0 i j ^ 2 + readC s H W 0 (i - 1) j ^ 2
      + readC s H W 0 (i + 1) j ^ 2 + readC s H W 0 i (j - 1) ^ 2
      + readC s H W 0 i (j + 1) ^ 2) / 8)

/-- Diffusion sub-step loop of World.diffuse_scent (world.py lines 282-284):
only the square/correlate/sqrt pass is inside the loop. -/
def diffuseLoop (H W : Nat) (s : Grid) : Nat → Grid
  | 0 => s
  | n + 1 => diffusePass H W (diffuseLoop H W s n)

/-- World.diffuse_scent (world.py lines 279-289): run the configured number
of diffusion sub-steps, then decay by one (saturating) and re-inject
energy / 4 (saturating) once, and finally zero the scent at masked cells
when an obstacle mask is supplied. -/
def diffuse_scent (H W steps : Nat) (energy scent : Grid) (mask : Option Grid) : Grid :=
  fun i j =>
    let v := satAdd (satSub (diffuseLoop H W scent steps i j) 1) (energy i j / 4)
    match mask with
    | none => v
    | some m => if m i j = 0 then v else 0

/-- Reading of the diffusion rule asserted by the claim: the decay and the
energy re-injection inside every sub-step. Stated only to be compared with
diffuse_scent. -/
def diffuse_scent_claim (H W : Nat) (energy scent : Grid) : Nat → Grid
  | 0 => scent
  | n + 1 => fun i j =>
      satAdd (satSub (diffusePass H W (diffuse_scent_claim H W energy scent n) i j) 1)
        (energy i j / 4)

/-- All-zero channel. -/
def zeroGrid : Grid := fun _ _ => 0

/-- Constant 255 channel, the saturation boundary for the id counters. -/
def c1Ids : Grid := fun _ _ => 255

/-- C7: for every cell the eating rule removes exactly min(eat_max, eaten)
from the eaten field where the eater is present and nothing where it is
absent, and credits the eater with delta / lossDiv, saturating; at eater 10,
eaten 5, eat_max 16, loss divisor 4 the results are eaten 0 and eater 11. -/
theorem c7_eat_transfer (eaterE eatenE : Grid) (eatMax lossDiv : Nat) (i j : Int) :
    (0 < eaterE i j →
      eat_eaten eaterE eatenE eatMax i j = eatenE i j - min eatMax (eatenE i j) ∧
      eat_eater eaterE eatenE eatMax lossDiv i j
        = satAdd (eaterE i j) (min eatMax (eatenE i j) / lossDiv)) ∧
    (eaterE i j = 0 →
      eat_eaten eaterE eatenE eatMax i j = eatenE i j ∧
      eat_eater eaterE eatenE eatMax lossDiv i j = eaterE i j) ∧
    (eaterE i j = 10 → eatenE i j = 5 → eatMax = 16 → lossDiv = 4 →
      eat_eaten eaterE eatenE eatMax i j = 0 ∧
      eat_eater eaterE eatenE eatMax lossDiv i j = 11) := by
  refine ⟨fun h => ⟨?_, ?_⟩, fun h => ⟨?_, ?_⟩, fun h1 h2 h3 h4 => ⟨?_, ?_⟩⟩
  · unfold eat_eaten satSub
    rw [if_pos h]
    omega
  · unfold eat_eater eat_eaten satAdd satSub
    rw [if_pos h]
    have hd : eatenE i j - (eatenE i j - eatMax) = min eatMax (eatenE i j) := by omega
    rw [hd]
  · unfold eat_eaten satSub
    rw [if_neg (by omega)]
    omega
  · unfold eat_eater eat_eaten satAdd satSub
    rw [if_neg (by omega)]
    have hd : eatenE i j - (eatenE i j - 0) = 0 := by omega
    rw [hd, Nat.zero_div, h]
    decide
  · unfold eat_eaten satSub
    rw [h1, h2, h3]
    decide
  · unfold eat_eater eat_eaten satAdd satSub
    rw [h1, h2, h3, h4]
    decide

/-- C7 witness: the concrete eater 10 / eaten 5 / eat_max 16 / loss 4
scenario from the spec. -/
theorem c7_eat_transfer_witness :
    eat_eaten (fun _ _ => 10) (fun _ _ => 5) 16 0 0 = 0 ∧
    eat_eater (fun _ _ => 10) (fun _ _ => 5) 16 4 0 0 = 11 :=
  (c7_eat_transfer (fun _ _ => 10) (fun _ _ => 5) 16 4 0 0).2.2 rfl rfl rfl rfl

/-- C9: germination adds exactly one unit of plant energy when and only when
the seed flag is set, the plant energy is zero and the germination draw is
zero, clears the seed flag at exactly the germinating cells, and with odds 1
a seeded empty cell germinates deterministically whatever the random byte. -/
theorem c9_germination (seeds pe rand : Grid) (odds : Nat) (i j : Int)
    (hs : seeds i j ≤ 1) (hp : pe i j ≤ 255) :
    (germinate_pe seeds pe odds rand i j
       = if seeds i j = 1 ∧ pe i j = 0 ∧ rand i j % odds = 0 then 1 else pe i j) ∧
    (germinate_seeds seeds pe odds rand i j
       = if seeds i j = 1 ∧ pe i j = 0 ∧ rand i j % odds = 0 then 0 else seeds i j) ∧
    (odds = 1 → seeds i j = 1 → pe i j = 0 →
      germinate_pe seeds pe odds rand i j = 1 ∧
      germinate_seeds seeds pe odds rand i j = 0) := by
  have hmask : germMask seeds pe odds rand i j
      = if seeds i j = 1 ∧ pe i j = 0 ∧ rand i j % odds = 0 then 1 else 0 := by
    have hs01 : seeds i j = 0 ∨ seeds i j = 1 := by omega
    unfold germMask
    rcases hs01 with h | h <;> rw [h] <;> split_ifs <;>
      first
        | decide
        | omega
        | simp_all
  have h1 : germinate_pe seeds pe odds rand i j
      = if seeds i j = 1 ∧ pe i j = 0 ∧ rand i j % odds = 0 then 1 else pe i j := by
    unfold germinate_pe satAdd
    rw [hmask]
    split_ifs with hc <;> omega
  have h2 : germinate_seeds seeds pe odds rand i j
      = if seeds i j = 1 ∧ pe i j = 0 ∧ rand i j % odds = 0 then 0 else seeds i j := by
    unfold germinate_seeds satSub
    rw [hmask]
    split_ifs with hc <;> omega
  refine ⟨h1, h2, fun ho hse hpe => ?_⟩
  rw [h1, h2, if_pos ⟨hse, hpe, by rw [ho, Nat.mod_one]⟩,
      if_pos ⟨hse, hpe, by rw [ho, Nat.mod_one]⟩]
  exact ⟨rfl, rfl⟩

/-- C9 witness: a seeded empty cell with odds 1 germinates regardless of the
random byte. -/
theorem c9_germination_witness :
    germinate_pe (fun _ _ => 1) (fun _ _ => 0) 1 (fun _ _ => 77) 0 0 = 1 ∧
    germinate_seeds (fun _ _ => 1) (fun _ _ => 0) 1 (fun _ _ => 77) 0 0 = 0 :=
  (c9_germination (fun _ _ => 1) (fun _ _ => 0) (fun _ _ => 77) 1 0 0
    (by decide) (by decide)).2.2 rfl rfl rfl

/-- C8: a cell with existing plant energy gains exactly one unit (saturating)
when and only when plant energy plus fertility is at most the growth draw and
the crowding draw is at least the crowding value, both read from the same
per-cell random byte; and inside the plant phase — which hands one random
field to growth, seeding and germination alike — germination leaves growing
cells untouched, so the phase output at such cells is exactly the growth
result under that shared random field. -/
theorem c8_growth_condition (pe seeds crowd fert rand : Grid)
    (godds codds sodds gerodds : Nat) (i j : Int)
    (hp : pe i j ≤ 255) (hg : rand i j % godds < 255) :
    (grow pe godds crowd codds fert rand i j
       = if 0 < pe i j ∧ pe i j + fert i j ≤ rand i j % godds
            ∧ crowd i j ≤ rand i j % codds
         then satAdd (pe i j) 1 else pe i j) ∧
    (0 < pe i j →
      (plantPhase pe seeds crowd fert rand godds codds sodds gerodds).1 i j
        = grow pe godds crowd codds fert rand i j) := by
  have hgrow : grow pe godds crowd codds fert rand i j
      = if 0 < pe i j ∧ pe i j + fert i j ≤ rand i j % godds
           ∧ crowd i j ≤ rand i j % codds
        then satAdd (pe i j) 1 else pe i j := by
    unfold grow satAdd
    split_ifs with ha hb hb <;> omega
  refine ⟨hgrow, fun hpos => ?_⟩
  have hgrowpos : 0 < grow pe godds crowd codds fert rand i j := by
    rw [hgrow]
    unfold satAdd
    split_ifs <;> omega
  show germinate_pe _ (grow pe godds crowd codds fert rand) gerodds rand i j = _
  unfold germinate_pe germMask satAdd
  rw [if_pos hgrowpos]
  have hb : grow pe godds crowd codds fert rand i j ≤ 255 := by
    rw [hgrow]
    unfold satAdd
    split_ifs <;> omega
  have e1 : Nat.land ((fun i j =>
      Nat.lor (seeds i j) (if rand i j % sodds < crowd i j then 1 else 0) : Grid) i j) 0
      = 0 := Nat.and_zero _
  rw [e1]
  have e2 : Nat.land 0 (if rand i j % gerodds = 0 then 1 else 0) = 0 := Nat.zero_and _
  rw [e2]
  omega

/-- C8 witness: plant energy 5, fertility 10, crowding 3, random byte 20 with
the default odds grows to 6, and the plant phase agrees with the growth rule
at that growing cell. -/
theorem c8_growth_condition_witness :
    grow (fun _ _ => 5) 255 (fun _ _ => 3) 25 (fun _ _ => 10) (fun _ _ => 20) 0 0 = 6 ∧
    (plantPhase (fun _ _ => 5) (fun _ _ => 0) (fun _ _ => 3) (fun _ _ => 10)
        (fun _ _ => 20) 255 25 255 255).1 0 0
      = grow (fun _ _ => 5) 255 (fun _ _ => 3) 25 (fun _ _ => 10) (fun _ _ => 20) 0 0 := by
  have h := c8_growth_condition (fun _ _ => 5) (fun _ _ => 0) (fun _ _ => 3)
    (fun _ _ => 10) (fun _ _ => 20) 255 25 255 255 0 0 (by decide) (by decide)
  exact ⟨by rw [h.1]; decide, h.2 (by decide)⟩

/-- C10 counterexample: on a 1×1 grid with scent 10 and energy 8 and two
diffusion sub-steps, the code applies the decay and the energy re-injection
once after the loop (result 5), while the claim, which repeats the complete
algorithm per sub-step, yields 6. -/
theorem c10_counterexample :
    diffuse_scent 1 1 2 (fun _ _ => 8) (fun _ _ => 10) none 0 0 = 5 ∧
    diffuse_scent_claim 1 1 (fun _ _ => 8) (fun _ _ => 10) 2 0 0 = 6 := by
  decide

/-- C10 amended: every diffusion sub-step applies only the
square/correlate/sqrt pass; the saturating decay by one and the energy / 4
re-injection happen exactly once per call, after the last sub-step, followed
by the single obstacle-mask zeroing. -/
theorem c10_diffusion_substeps (H W n : Nat) (energy scent : Grid)
    (mask : Option Grid) (i j : Int) :
    diffuse_scent H W n energy scent mask i j
      = match mask with
        | none => satAdd (satSub ((fun g => diffusePass H W g)^[n] scent i j) 1)
            (energy i j / 4)
        | some m => if m i j = 0
            then satAdd (satSub ((fun g => diffusePass H W g)^[n] scent i j) 1)
              (energy i j / 4)
            else 0 := by
  have hloop : ∀ k : Nat, diffuseLoop H W scent k = (fun g => diffusePass H W g)^[k] scent := by
    intro k
    induction k with
    | zero => rfl
    | succ m ih =>
      show diffusePass H W (diffuseLoop H W scent m) = _
      rw [ih, Function.iterate_succ_apply']
  unfold diffuse_scent
  rw [hloop]

/-- Modelled from the spec: util.get_direction_matrix is not under src; per
section 4.1 directionFromGradient compares the four axis neighbors with the
cell itself and returns the direction of the strict maximum among neighbors
when it exceeds the cell value, ties broken in the fixed priority order
N, E, S, W. Directions are encoded 0 stay, 1 north, 2 east, 3 south,
4 west. -/
def dirSelect (c n e s w : Nat) : Nat :=
  let m := max (max n e) (max s w)
  if m ≤ c then 0
  else if n = m then 1 else if e = m then 2 else if s = m then 3 else 4

/-- Per-cell direction choice over a target grid, reading neighbors with a
constant-zero boundary. -/
def chooseDirection (t : Grid) (H W : Nat) (i j : Int) : Nat :=
  dirSelect (readC t H W 0 i j) (readC t H W 0 (i - 1) j)
    (readC t H W 0 i (j + 1)) (readC t H W 0 (i + 1) j) (readC t H W 0 i (j - 1))

lemma dirSelect_spec (c n e s w : Nat) :
    (dirSelect c n e s w = 0 ↔ n ≤ c ∧ e ≤ c ∧ s ≤ c ∧ w ≤ c) ∧
    (dirSelect c n e s w = 1 ↔ c < n ∧ e ≤ n ∧ s ≤ n ∧ w ≤ n) ∧
    (dirSelect c n e s w = 2 ↔ c < e ∧ n < e ∧ s ≤ e ∧ w ≤ e) ∧
    (dirSelect c n e s w = 3 ↔ c < s ∧ n < s ∧ e < s ∧ w ≤ s) ∧
    (dirSelect c n e s w = 4 ↔ c < w ∧ n < w ∧ e < w ∧ s < w) := by
  unfold dirSelect
  simp only [Nat.max_def]
  split_ifs <;> refine ⟨?_, ?_, ?_, ?_, ?_⟩ <;> constructor <;> intro hh <;>
    first
      | exact hh.elim
      | omega

/-- Concrete 3×3 target field whose north and east neighbors of the center
cell tie for the maximum. -/
def exField : Grid := fun i j => if (i = 0 ∧ j = 1) ∨ (i = 1 ∧ j = 2) then 9 else 0

/-- C4: for every cell the chosen direction is the strict maximum among the
four axis neighbors when it exceeds the cell value and stay otherwise, with
ties broken in the fixed priority order N, E, S, W; in particular on a 3×3
field whose north and east neighbors of the center tie for the maximum, the
center chooses north. -/
theorem c4_direction_priority (t : Grid) (H W : Nat) (i j : Int) :
    (chooseDirection t H W i j = 0 ↔
      readC t H W 0 (i - 1) j ≤ readC t H W 0 i j ∧
      readC t H W 0 i (j + 1) ≤ readC t H W 0 i j ∧
      readC t H W 0 (i + 1) j ≤ readC t H W 0 i j ∧
      readC t H W 0 i (j - 1) ≤ readC t H W 0 i j) ∧
    (chooseDirection t H W i j = 1 ↔
      readC t H W 0 i j < readC t H W 0 (i - 1) j ∧
      readC t H W 0 i (j + 1) ≤ readC t H W 0 (i - 1) j ∧
      readC t H W 0 (i + 1) j ≤ readC t H W 0 (i - 1) j ∧
      readC t H W 0 i (j - 1) ≤ readC t H W 0 (i - 1) j) ∧
    (chooseDirection t H W i j = 2 ↔
      readC t H W 0 i j < readC t H W 0 i (j + 1) ∧
      readC t H W 0 (i - 1) j < readC t H W 0 i (j + 1) ∧
      readC t H W 0 (i + 1) j ≤ readC t H W 0 i (j + 1) ∧
      readC t H W 0 i (j - 1) ≤ readC t H W 0 i (j + 1)) ∧
    (chooseDirection t H W i j = 3 ↔
      readC t H W 0 i j < readC t H W 0 (i + 1) j ∧
      readC t H W 0 (i - 1) j < readC t H W 0 (i + 1) j ∧
      readC t H W 0 i (j + 1) < readC t H W 0 (i + 1) j ∧
      readC t H W 0 i (j - 1) ≤ readC t H W 0 (i + 1) j) ∧
    (chooseDirection t H W i j = 4 ↔
      readC t H W 0 i j < readC t H W 0 i (j - 1) ∧
      readC t H W 0 (i - 1) j < readC t H W 0 i (j - 1) ∧
      readC t H W 0 i (j + 1) < readC t H W 0 i (j - 1) ∧
      readC t H W 0 (i + 1) j < readC t H W 0 i (j - 1)) ∧
    chooseDirection exField 3 3 1 1 = 1 := by
  have h := dirSelect_spec (readC t H W 0 i j) (readC t H W 0 (i - 1) j)
    (readC t H W 0 i (j + 1)) (readC t H W 0 (i + 1) j) (readC t H W 0 i (j - 1))
  exact ⟨h.1, h.2.1, h.2.2.1, h.2.2.2.1, h.2.2.2.2, by decide⟩

/-- Unit offsets of the four movement directions (1 north, 2 east, 3 south,
4 west); pad_matrix shifts payloads by exactly this offset. -/
def delta (d : Nat) : Int × Int :=
  match d with
  | 1 => (-1, 0)
  | 2 => (0, 1)
  | 3 => (1, 0)
  | _ => (0, -1)

/-- Modelled from the spec: util.directional_kernel_set is not under src; per
section 4.3 each direction has a size×size destination-neighborhood window
lying directly ahead of the cell — it contains the destination cell and not
the origin. -/
def windowOffsets (d size : Nat) : List (Int × Int) :=
  let across := (List.range size).map (fun k => (k : Int) - (size : Int) / 2)
  let ahead := (List.range size).map (fun k => (k : Int) + 1)
  match d with
  | 1 => (ahead.map (fun a => across.map (fun c => (-a, c)))).flatten
  | 2 => (ahead.map (fun a => across.map (fun c => (c, a)))).flatten
  | 3 => (ahead.map (fun a => across.map (fun c => (a, c)))).flatten
  | _ => (ahead.map (fun a => across.map (fun c => (c, -a)))).flatten

/-- Clearance veto of World.move (world.py lines 379-389): movement in
direction d is suppressed when the windowed correlation of the clearance
mask, computed with constant boundary fill 1, is nonzero — that is, when any
cell of the destination window is occupied or out of bounds. -/
def blocked (C : Grid) (H W ks d : Nat) (i j : Int) : Bool :=
  (windowOffsets d ks).any (fun o => readC C H W 1 (i + o.1) (j + o.2) != 0)

/-- Clearance mask assembly of World.move (world.py lines 365-372): the
saturating sum of any extra occupancy fields, with the mover always counted
as occupying its own cell; with no extra fields it is the mover-occupancy
indicator. -/
def clearance (extra : List Grid) (E : Grid) : Grid :=
  fun i j => if 0 < E i j then 1 else (extra.map (fun g => g i j)).foldl satAdd 0

/-- Direction mask of World.move (world.py lines 374-389): one where an
entity is present, its chosen direction over the target field is d, and the
clearance window for d is empty. -/
def dmask (T C E : Grid) (H W ks : Nat) (d : Nat) (i j : Int) : Nat :=
  if chooseDirection T H W i j = d ∧ 0 < E i j ∧ blocked C H W ks d i j = false
  then 1 else 0

/-- Sum of the four direction masks at a cell (world.py line 392): positive
exactly at move origins. -/
def dmaskSum (T C E : Grid) (H W ks : Nat) (i j : Int) : Nat :=
  dmask T C E H W ks 1 i j + dmask T C E H W ks 2 i j
    + dmask T C E H W ks 3 i j + dmask T C E H W ks 4 i j

/-- Offspring-producing origin (world.py line 395): a move origin whose
energy exceeds the divide threshold. -/
abbrev offspringAt (T C E : Grid) (H W ks thr : Nat) (i j : Int) : Prop :=
  0 < dmaskSum T C E H W ks i j ∧ thr < E i j

/-- Vacating origin (world.py line 398): a move origin at or below the divide
threshold, zeroed after the move. -/
abbrev vacatedAt (T C E : Grid) (H W ks thr : Nat) (i j : Int) : Prop :=
  0 < dmaskSum T C E H W ks i j ∧ E i j ≤ thr

/-- Per-direction payload leaving an origin cell (world.py lines 404-409):
the masked carried value, transformed by the feature function when the
masked energy exceeds the divide threshold. Econd is the energy grid the
threshold test reads at that point of the in-place loop: the pre-move energy
for the energy feature itself, the already updated energy for the carried
features processed after it. -/
def contrib (T C E Econd F : Grid) (f : Nat → Nat) (H W ks thr d : Nat) (i j : Int) : Nat :=
  if thr < dmask T C E H W ks d i j * Econd i j
  then dmask T C E H W ks d i j * f (F i j)
  else dmask T C E H W ks d i j * F i j

/-- The contribution shifted into a destination cell from one direction
(world.py lines 402-413): pad_matrix shifts with zero fill, so origins
outside the grid contribute nothing. -/
def arriving (T C E Econd F : Grid) (f : Nat → Nat) (H W ks thr d : Nat) (i j : Int) : Nat :=
  if inBoundsP H W (i - (delta d).1) (j - (delta d).2)
  then contrib T C E Econd F f H W ks thr d (i - (delta d).1) (j - (delta d).2)
  else 0

/-- Sum of the four shifted contributions arriving at a destination cell. -/
def incoming (T C E Econd F : Grid) (f : Nat → Nat) (H W ks thr : Nat) (i j : Int) : Nat :=
  arriving T C E Econd F f H W ks thr 1 i j + arriving T C E Econd F f H W ks thr 2 i j
    + arriving T C E Econd F f H W ks thr 3 i j + arriving T C E Econd F f H W ks thr 4 i j

/-- A feature after the destination-accumulation loop iteration for it
(world.py lines 401-413): the saturating union of its current state and the
state after movement. -/
def destUpdated (T C E Econd F : Grid) (f : Nat → Nat) (H W ks thr : Nat) : Grid :=
  fun i j => satAdd (F i j) (incoming T C E Econd F f H W ks thr i j)

/-- The entity energy after its destination-accumulation iteration, which
runs first, reading pre-move energy in its threshold test and using the
default divide transform (half to the destination). -/
def energyAfterArrivals (T : Grid) (extra : List Grid) (E : Grid) (H W ks thr : Nat) : Grid :=
  destUpdated T (clearance extra E) E E E (fun x => x / 2) H W ks thr

/-- Energy evolution of World.move with the default divide transforms:
destination accumulation (half the energy moves in when the origin divides),
then the offspring-origin division (a quarter kept), then zeroing of vacated
origins. -/
def moveEnergy (T : Grid) (extra : List Grid) (E : Grid) (H W ks thr : Nat) : Grid :=
  fun i j =>
    if vacatedAt T (clearance extra E) E H W ks thr i j then 0
    else if offspringAt T (clearance extra E) E H W ks thr i j
      then energyAfterArrivals T extra E H W ks thr i j / 4
      else energyAfterArrivals T extra E H W ks thr i j

/-- Herbivore feature channels touched by the herbivore movement call. -/
structure HerbFields where
  energy : Grid
  offspringCount : Grid
  id0 : Grid
  id1 : Grid

/-- Herbivore movement call of World.update (world.py lines 235-245) as an
instance of World.move: the self carried features are offspring_count
(saturating increment), id_0 and id_1 (identity), processed after the energy
feature and therefore reading the already updated energy in their threshold
tests; the offspring transforms are the in-place lineage carry update_id —
which increments id_1 modulo 256 at EVERY cell whose (accumulated) id_0 is
255, the offspring where-mask collapsing because both where branches alias
the mutated tensor — followed by the wrapping id_0 increment at offspring
origins; vacated origins finally zero energy and every carried feature. -/
def herbMove (T : Grid) (extra : List Grid) (st : HerbFields) (H W ks thr : Nat) : HerbFields :=
  let C := clearance extra st.energy
  let E := st.energy
  let E1 := energyAfterArrivals T extra E H W ks thr
  let OC1 := destUpdated T C E E1 st.offspringCount (fun x => satAdd x 1) H W ks thr
  let I0d := destUpdated T C E E1 st.id0 (fun x => x) H W ks thr
  let I1d := destUpdated T C E E1 st.id1 (fun x => x) H W ks thr
  { energy := fun i j => if vacatedAt T C E H W ks thr i j then 0
      else if offspringAt T C E H W ks thr i j then E1 i j / 4 else E1 i j
    offspringCount := fun i j => if vacatedAt T C E H W ks thr i j then 0 else OC1 i j
    id0 := fun i j => if vacatedAt T C E H W ks thr i j then 0
      else if offspringAt T C E H W ks thr i j then wrap8 (I0d i j + 1) else I0d i j
    id1 := fun i j => if vacatedAt T C E H W ks thr i j then 0 else update_id I0d I1d i j }

/-- Feature channels touched by the predator movement call: the predator's
own four, plus the herbivore id channels that the call, as written, also
mutates. -/
structure PredFields where
  energy : Grid
  offspringCount : Grid
  predId0 : Grid
  predId1 : Grid
  herbId0 : Grid
  herbId1 : Grid

/-- Predator movement call of World.update (world.py lines 248-259) as an
instance of World.move. The self carried features are the predator
offspring_count, id_0 and id_1; the offspring carried features, as written
in the source, are the HERBIVORE id_1 and id_0, with transforms update_id on
the predator id pair (mutating predator id_1 in place and writing its value
into herbivore id_1 at offspring origins) and a wrapping increment applied
to herbivore id_0 at offspring origins; the final vacated-origin zeroing
runs over energy, the self features and the offspring features, hence also
zeroes the herbivore id channels at predator vacating origins. -/
def predMove (T : Grid) (extra : List Grid) (st : PredFields) (H W ks thr : Nat) : PredFields :=
  let C := clearance extra st.energy
  let E := st.energy
  let E1 := energyAfterArrivals T extra E H W ks thr
  let OC1 := destUpdated T C E E1 st.offspringCount (fun x => satAdd x 1) H W ks thr
  let P0d := destUpdated T C E E1 st.predId0 (fun x => x) H W ks thr
  let P1d := destUpdated T C E E1 st.predId1 (fun x => x) H W ks thr
  { energy := fun i j => if vacatedAt T C E H W ks thr i j then 0
      else if offspringAt T C E H W ks thr i j then E1 i j / 4 else E1 i j
    offspringCount := fun i j => if vacatedAt T C E H W ks thr i j then 0 else OC1 i j
    predId0 := fun i j => if vacatedAt T C E H W ks thr i j then 0 else P0d i j
    predId1 := fun i j => if vacatedAt T C E H W ks thr i j then 0 else update_id P0d P1d i j
    herbId0 := fun i j => if vacatedAt T C E H W ks thr i j then 0
      else if offspringAt T C E H W ks thr i j then wrap8 (st.herbId0 i j + 1)
      else st.herbId0 i j
    herbId1 := fun i j => if vacatedAt T C E H W ks thr i j then 0
      else if offspringAt T C E H W ks thr i j then update_id P0d P1d i j
      else st.herbId1 i j }

/-- Target combination of the predator movement call (world.py lines 248-253
and 341-363): herbivore scent at weight one minus the saturating predator
scent at weight one. -/
def combineTarget (att rep : Grid) : Grid := fun i j => satSub (att i j) (rep i j)

/-- The predator movement call exactly as issued by World.update: combined
target, no extra clearance fields, the default 5×5 clearance kernel and the
default divide threshold 250. -/
def predMoveCall (herbScent predScent : Grid) (st : PredFields) (H W : Nat) : PredFields :=
  predMove (combineTarget herbScent predScent) [] st H W 5 250

lemma dmask_zero_of_energy {T C E : Grid} {H W ks d : Nat} {i j : Int}
    (h : E i j = 0) : dmask T C E H W ks d i j = 0 := by
  unfold dmask
  rw [if_neg]
  rintro ⟨-, h2, -⟩
  omega

lemma dmask_zero_of_dir {T C E : Grid} {H W ks d : Nat} {i j : Int}
    (h : chooseDirection T H W i j ≠ d) : dmask T C E H W ks d i j = 0 := by
  unfold dmask
  rw [if_neg]
  rintro ⟨h1, -, -⟩
  exact h h1

lemma dmask_zero_of_blocked {T C E : Grid} {H W ks d : Nat} {i j : Int}
    (h : blocked C H W ks d i j = true) : dmask T C E H W ks d i j = 0 := by
  unfold dmask
  rw [if_neg]
  rintro ⟨-, -, h3⟩
  rw [h] at h3
  cases h3

lemma contrib_zero {T C E Econd F : Grid} {f : Nat → Nat} {H W ks thr d : Nat} {i j : Int}
    (h : dmask T C E H W ks d i j = 0) :
    contrib T C E Econd F f H W ks thr d i j = 0 := by
  unfold contrib
  rw [h]
  simp

lemma arriving_zero {T C E Econd F : Grid} {f : Nat → Nat} {H W ks thr d : Nat} {i j : Int}
    (h : dmask T C E H W ks d (i - (delta d).1) (j - (delta d).2) = 0) :
    arriving T C E Econd F f H W ks thr d i j = 0 := by
  unfold arriving
  split_ifs with hb
  · exact contrib_zero h
  · rfl

lemma incoming_zero {T C E Econd F : Grid} {f : Nat → Nat} {H W ks thr : Nat} {i j : Int}
    (h : ∀ d, 1 ≤ d → d ≤ 4 →
      dmask T C E H W ks d (i - (delta d).1) (j - (delta d).2) = 0) :
    incoming T C E Econd F f H W ks thr i j = 0 := by
  unfold incoming
  rw [arriving_zero (h 1 (by omega) (by omega)), arriving_zero (h 2 (by omega) (by omega)),
      arriving_zero (h 3 (by omega) (by omega)), arriving_zero (h 4 (by omega) (by omega))]

lemma delta_ne_zero {d : Nat} (h1 : 1 ≤ d) (h2 : d ≤ 4) : delta d ≠ (0, 0) := by
  interval_cases d <;> decide

lemma delta_inj {d1 d2 : Nat} (h1 : 1 ≤ d1) (h2 : d1 ≤ 4) (h3 : 1 ≤ d2) (h4 : d2 ≤ 4)
    (he : delta d1 = delta d2) : d1 = d2 := by
  interval_cases d1 <;> interval_cases d2 <;> revert he <;> decide

lemma dmask_all_zero_of_single_blocked {T E : Grid} {extra : List Grid}
    {H W ks : Nat} {i j : Int}
    (hone : ∀ a b, ¬(a = i ∧ b = j) → E a b = 0)
    (hb : blocked (clearance extra E) H W ks (chooseDirection T H W i j) i j = true) :
    ∀ d a b, dmask T (clearance extra E) E H W ks d a b = 0 := by
  intro d a b
  by_cases hab : a = i ∧ b = j
  · obtain ⟨h1, h2⟩ := hab
    subst h1
    subst h2
    by_cases hd : chooseDirection T H W a b = d
    · exact dmask_zero_of_blocked (by rw [← hd]; exact hb)
    · exact dmask_zero_of_dir hd
  · exact dmask_zero_of_energy (hone a b hab)

/-- C3: movement in a direction whose clearance window is non-empty is
cancelled — the direction mask is zero — and a lone entity whose chosen
direction is vetoed by the clearance test does not move at all: the energy
grid comes out of the movement rule unchanged, the entity keeping its energy
at its origin and no destination gaining any. -/
theorem c3_clearance_suppresses (T E : Grid) (extra : List Grid) (H W ks thr : Nat)
    (i j : Int)
    (hone : ∀ a b, ¬(a = i ∧ b = j) → E a b = 0) (hE : E i j ≤ 255)
    (hb : blocked (clearance extra E) H W ks (chooseDirection T H W i j) i j = true) :
    (∀ d a b, blocked (clearance extra E) H W ks d a b = true →
      dmask T (clearance extra E) E H W ks d a b = 0) ∧
    ∀ a b, moveEnergy T extra E H W ks thr a b = E a b := by
  refine ⟨fun d a b hbl => dmask_zero_of_blocked hbl, fun a b => ?_⟩
  have hall := dmask_all_zero_of_single_blocked hone hb
  have hsum : ∀ a2 b2, dmaskSum T (clearance extra E) E H W ks a2 b2 = 0 := by
    intro a2 b2
    unfold dmaskSum
    rw [hall 1 a2 b2, hall 2 a2 b2, hall 3 a2 b2, hall 4 a2 b2]
  unfold moveEnergy
  rw [if_neg (fun hv => by
        have h9 := hv.1
        rw [hsum a b] at h9
        exact absurd h9 (lt_irrefl 0)),
      if_neg (fun ho => by
        have h9 := ho.1
        rw [hsum a b] at h9
        exact absurd h9 (lt_irrefl 0))]
  unfold energyAfterArrivals destUpdated
  rw [incoming_zero (fun d2 hd1 hd4 => hall d2 _ _)]
  have hb2 : E a b ≤ 255 := by
    by_cases hab : a = i ∧ b = j
    · obtain ⟨h1, h2⟩ := hab
      subst h1
      subst h2
      exact hE
    · rw [hone a b hab]
      omega
  unfold satAdd
  omega

/-- Lone entity with energy 10 at the center of a 3×3 grid. -/
def gE10 : Grid := fun a b => if a = 1 ∧ b = 1 then 10 else 0

/-- Target field pulling the center of a 3×3 grid east. -/
def gT50 : Grid := fun a b => if a = 1 ∧ b = 2 then 50 else 0

/-- C3 witness: on the 3×3 grid the east 5×5 window of the center runs off
the grid, whose boundary counts as occupied, so the lone entity stays put
and its destination gains nothing. -/
theorem c3_clearance_suppresses_witness :
    moveEnergy gT50 [] gE10 3 3 5 250 1 1 = 10 ∧
    moveEnergy gT50 [] gE10 3 3 5 250 1 2 = 0 := by
  have h := c3_clearance_suppresses gT50 gE10 [] 3 3 5 250 1 1
    (fun a b hab => by simp only [gE10]; rw [if_neg hab])
    (by decide) (by decide)
  exact ⟨(h.2 1 1).trans (by decide), (h.2 1 2).trans (by decide)⟩

lemma herbMove_id1_eq (T : Grid) (extra : List Grid) (st : HerbFields) (H W ks thr : Nat) :
    (herbMove T extra st H W ks thr).id1 = fun i j =>
      if vacatedAt T (clearance extra st.energy) st.energy H W ks thr i j then 0
      else update_id
        (destUpdated T (clearance extra st.energy) st.energy
          (energyAfterArrivals T extra st.energy H W ks thr) st.id0 (fun x => x) H W ks thr)
        (destUpdated T (clearance extra st.energy) st.energy
          (energyAfterArrivals T extra st.energy H W ks thr) st.id1 (fun x => x) H W ks thr)
        i j := rfl

lemma herbMove_id0_eq (T : Grid) (extra : List Grid) (st : HerbFields) (H W ks thr : Nat) :
    (herbMove T extra st H W ks thr).id0 = fun i j =>
      if vacatedAt T (clearance extra st.energy) st.energy H W ks thr i j then 0
      else if offspringAt T (clearance extra st.energy) st.energy H W ks thr i j
        then wrap8 (destUpdated T (clearance extra st.energy) st.energy
          (energyAfterArrivals T extra st.energy H W ks thr) st.id0 (fun x => x) H W ks thr i j
          + 1)
        else destUpdated T (clearance extra st.energy) st.energy
          (energyAfterArrivals T extra st.energy H W ks thr) st.id0 (fun x => x) H W ks thr
          i j := rfl

/-- C5 amended: during the herbivore movement rule, id_1 is incremented by
exactly one (mod 256) at EVERY cell whose id_0 — after destination
accumulation, which at a cell receiving no arrivals is id_0 itself — equals
255, immediately before the id_0 offspring increment, whether or not that
cell is an offspring origin; at a non-vacated cell with no arriving movers
the final id pair is exactly the lineage-carry update of the original pair,
with id_0 then incremented (wrapping) only at offspring origins. -/
theorem c5_lineage_carry (T : Grid) (extra : List Grid) (st : HerbFields)
    (H W ks thr : Nat) (i j : Int)
    (hno : ∀ d, 1 ≤ d → d ≤ 4 →
      dmask T (clearance extra st.energy) st.energy H W ks d
        (i - (delta d).1) (j - (delta d).2) = 0)
    (hvac : ¬ vacatedAt T (clearance extra st.energy) st.energy H W ks thr i j)
    (h0 : st.id0 i j ≤ 255) (h1 : st.id1 i j ≤ 255) :
    (herbMove T extra st H W ks thr).id1 i j = update_id st.id0 st.id1 i j ∧
    (st.id0 i j = 255 →
      (herbMove T extra st H W ks thr).id1 i j = wrap8 (st.id1 i j + 1)) ∧
    (herbMove T extra st H W ks thr).id0 i j
      = if offspringAt T (clearance extra st.energy) st.energy H W ks thr i j
        then wrap8 (st.id0 i j + 1) else st.id0 i j := by
  have hI0 : destUpdated T (clearance extra st.energy) st.energy
      (energyAfterArrivals T extra st.energy H W ks thr) st.id0 (fun x => x) H W ks thr i j
      = st.id0 i j := by
    unfold destUpdated
    rw [incoming_zero hno]
    unfold satAdd
    omega
  have hI1 : destUpdated T (clearance extra st.energy) st.energy
      (energyAfterArrivals T extra st.energy H W ks thr) st.id1 (fun x => x) H W ks thr i j
      = st.id1 i j := by
    unfold destUpdated
    rw [incoming_zero hno]
    unfold satAdd
    omega
  have e1 : (herbMove T extra st H W ks thr).id1 i j = update_id st.id0 st.id1 i j := by
    rw [herbMove_id1_eq]
    show (if vacatedAt T (clearance extra st.energy) st.energy H W ks thr i j then 0
      else update_id _ _ i j) = _
    rw [if_neg hvac]
    unfold update_id
    rw [hI0, hI1]
  have e2 : (herbMove T extra st H W ks thr).id0 i j
      = if offspringAt T (clearance extra st.energy) st.energy H W ks thr i j
        then wrap8 (st.id0 i j + 1) else st.id0 i j := by
    rw [herbMove_id0_eq]
    show (if vacatedAt T (clearance extra st.energy) st.energy H W ks thr i j then 0
      else if offspringAt T (clearance extra st.energy) st.energy H W ks thr i j
        then wrap8 (destUpdated T (clearance extra st.energy) st.energy
          (energyAfterArrivals T extra st.energy H W ks thr) st.id0 (fun x => x) H W ks thr i j
          + 1)
        else destUpdated T (clearance extra st.energy) st.energy
          (energyAfterArrivals T extra st.energy H W ks thr) st.id0 (fun x => x) H W ks thr
          i j) = _
    rw [if_neg hvac, hI0]
  refine ⟨e1, fun h255 => ?_, e2⟩
  rw [e1]
  unfold update_id
  rw [if_pos h255]

/-- Herbivore id_0 channel holding 255 at the origin cell only. -/
def c5Id0 : Grid := fun a b => if a = 0 ∧ b = 0 then 255 else 0

/-- Herbivore id_1 channel holding 5 at the origin cell only. -/
def c5Id1 : Grid := fun a b => if a = 0 ∧ b = 0 then 5 else 0

/-- Herbivore state with no energy anywhere (so nothing moves and nothing
reproduces) and a saturated id_0 at the origin. -/
def c5State : HerbFields :=
  { energy := zeroGrid, offspringCount := zeroGrid, id0 := c5Id0, id1 := c5Id1 }

/-- C5 counterexample: with no herbivores at all — hence no offspring cell
anywhere — a cell whose id_0 is 255 still has its id_1 incremented by the
movement rule, contradicting the claim that id_1 is left unchanged at
non-reproducing cells. -/
theorem c5_counterexample :
    c5State.energy 0 0 = 0 ∧ c5State.id1 0 0 = 5 ∧
    (herbMove zeroGrid [] c5State 3 3 5 250).id1 0 0 = 6 := by
  decide

/-- C5 witness: the amended rule applied at the all-quiet grid with a
saturated id_0 produces the wrapped increment 5 + 1 = 6. -/
theorem c5_lineage_carry_witness :
    (herbMove zeroGrid [] c5State 3 3 5 250).id1 0 0 = 6 := by
  have h := c5_lineage_carry zeroGrid [] c5State 3 3 5 250 0 0
    (fun d _ _ => by
      unfold dmask
      rw [if_neg]
      rintro ⟨-, h2, -⟩
      simp [c5State, zeroGrid] at h2)
    (by decide) (by decide) (by decide)
  exact (h.2.1 (by decide)).trans (by decide)

/-- Lone predator with energy 100 (below the divide threshold) at cell
(5, 2) of an 11×11 grid. -/
def c6Energy : Grid := fun a b => if a = 5 ∧ b = 2 then 100 else 0

/-- Herbivore scent attracting the predator one step east. -/
def c6HerbScent : Grid := fun a b => if a = 5 ∧ b = 3 then 10 else 0

/-- Herbivore id_0 channel holding 7 at the predator's cell. -/
def c6HerbId0 : Grid := fun a b => if a = 5 ∧ b = 2 then 7 else 0

/-- World state for the predator movement call: one predator about to move
east with a clear 5×5 window, sitting on a cell where the herbivore id_0
channel holds 7. -/
def c6State : PredFields :=
  { energy := c6Energy, offspringCount := zeroGrid, predId0 := zeroGrid,
    predId1 := zeroGrid, herbId0 := c6HerbId0, herbId1 := zeroGrid }

/-- C6: the predator movement call of World.update, which passes the
HERBIVORE id channels as its offspring carried features, zeroes the
herbivore id_0 channel at the predator's vacated origin — the herbivore
feature channels are written, not left unchanged. -/
theorem c6_herbivore_ids_clobbered :
    c6State.herbId0 5 2 = 7 ∧
    (predMoveCall c6HerbScent zeroGrid c6State 11 11).herbId0 5 2 = 0 := by
  decide

lemma delta_not_zero {d : Nat} (h1 : 1 ≤ d) (h2 : d ≤ 4) :
    ¬((delta d).1 = 0 ∧ (delta d).2 = 0) := by
  interval_cases d <;> decide

/-- Total of a grid over the H×W rectangle (torch.sum of one channel). -/
def gridSum (H W : Nat) (g : Grid) : Nat :=
  ∑ x ∈ Finset.range H ×ˢ Finset.range W, g (x.1 : Int) (x.2 : Int)

lemma sum_congr_two_points {s : Finset (Nat × Nat)} (f g : Nat × Nat → Nat)
    (p q : Nat × Nat) (hp : p ∈ s) (hq : q ∈ s) (hpq : p ≠ q)
    (hoff : ∀ x ∈ s, x ≠ p → x ≠ q → f x = g x)
    (hsum : f p + f q = g p + g q) :
    ∑ x ∈ s, f x = ∑ x ∈ s, g x := by
  have hq2 : q ∈ s.erase p := Finset.mem_erase.mpr ⟨Ne.symm hpq, hq⟩
  rw [← Finset.add_sum_erase s f hp, ← Finset.add_sum_erase s g hp,
      ← Finset.add_sum_erase (s.erase p) f hq2, ← Finset.add_sum_erase (s.erase p) g hq2]
  have hrest : ∑ x ∈ (s.erase p).erase q, f x = ∑ x ∈ (s.erase p).erase q, g x := by
    refine Finset.sum_congr rfl fun x hx => ?_
    have h1 := Finset.mem_erase.mp hx
    have h2 := Finset.mem_erase.mp h1.2
    exact hoff x h2.2 h2.1 h1.1
  omega

/-- C2 amended: a lone mover whose chosen direction passes the clearance test
conserves total energy exactly when its energy is at or below the divide
threshold 250 — the origin is zeroed and the destination receives exactly the
pre-move energy — while above the threshold the destination receives half
(floor) and the origin retains a quarter (floor), the code's actual division
split. -/
theorem c2_move_division (T E : Grid) (extra : List Grid) (H W ks : Nat)
    (i j : Int) (d : Nat)
    (hd1 : 1 ≤ d) (hd4 : d ≤ 4)
    (hdir : chooseDirection T H W i j = d)
    (hnb : blocked (clearance extra E) H W ks d i j = false)
    (hin : inBoundsP H W i j)
    (hqin : inBoundsP H W (i + (delta d).1) (j + (delta d).2))
    (hone : ∀ a b, ¬(a = i ∧ b = j) → E a b = 0)
    (hpos : 0 < E i j) (hE : E i j ≤ 255) :
    (E i j ≤ 250 →
      moveEnergy T extra E H W ks 250 i j = 0 ∧
      moveEnergy T extra E H W ks 250 (i + (delta d).1) (j + (delta d).2) = E i j ∧
      gridSum H W (moveEnergy T extra E H W ks 250) = gridSum H W E) ∧
    (250 < E i j →
      moveEnergy T extra E H W ks 250 (i + (delta d).1) (j + (delta d).2) = E i j / 2 ∧
      moveEnergy T extra E H W ks 250 i j = E i j / 4) := by
  have hdp : dmask T (clearance extra E) E H W ks d i j = 1 := by
    unfold dmask
    rw [if_pos ⟨hdir, hpos, hnb⟩]
  have hdz : ∀ d2 a b, ¬(d2 = d ∧ a = i ∧ b = j) →
      dmask T (clearance extra E) E H W ks d2 a b = 0 := by
    intro d2 a b h
    by_cases hab : a = i ∧ b = j
    · obtain ⟨h1, h2⟩ := hab
      subst h1
      subst h2
      refine dmask_zero_of_dir ?_
      rw [hdir]
      intro hc
      exact h ⟨hc.symm, rfl, rfl⟩
    · exact dmask_zero_of_energy (hone a b hab)
  have hq_ne : ¬(i + (delta d).1 = i ∧ j + (delta d).2 = j) := by
    rintro ⟨h5, h6⟩
    exact delta_not_zero hd1 hd4 ⟨by omega, by omega⟩
  have hE0q : E (i + (delta d).1) (j + (delta d).2) = 0 := hone _ _ hq_ne
  have hin_p : incoming T (clearance extra E) E E E (fun x => x / 2) H W ks 250 i j = 0 := by
    apply incoming_zero
    intro d2 h1 h4
    apply hdz
    rintro ⟨-, h5, h6⟩
    exact delta_not_zero h1 h4 ⟨by omega, by omega⟩
  have hsimp1 : i + (delta d).1 - (delta d).1 = i := by ring
  have hsimp2 : j + (delta d).2 - (delta d).2 = j := by ring
  have harr_qd : arriving T (clearance extra E) E E E (fun x => x / 2) H W ks 250 d
      (i + (delta d).1) (j + (delta d).2)
      = if 250 < E i j then E i j / 2 else E i j := by
    unfold arriving
    rw [hsimp1, hsimp2, if_pos hin]
    unfold contrib
    rw [hdp]
    simp only [one_mul]
  have hin_q : incoming T (clearance extra E) E E E (fun x => x / 2) H W ks 250
      (i + (delta d).1) (j + (delta d).2)
      = if 250 < E i j then E i j / 2 else E i j := by
    interval_cases d
    · unfold incoming
      rw [harr_qd,
          arriving_zero (hdz 2 _ _ (by rintro ⟨hc, -, -⟩; exact absurd hc (by decide))),
          arriving_zero (hdz 3 _ _ (by rintro ⟨hc, -, -⟩; exact absurd hc (by decide))),
          arriving_zero (hdz 4 _ _ (by rintro ⟨hc, -, -⟩; exact absurd hc (by decide)))]
      omega
    · unfold incoming
      rw [harr_qd,
          arriving_zero (hdz 1 _ _ (by rintro ⟨hc, -, -⟩; exact absurd hc (by decide))),
          arriving_zero (hdz 3 _ _ (by rintro ⟨hc, -, -⟩; exact absurd hc (by decide))),
          arriving_zero (hdz 4 _ _ (by rintro ⟨hc, -, -⟩; exact absurd hc (by decide)))]
      omega
    · unfold incoming
      rw [harr_qd,
          arriving_zero (hdz 1 _ _ (by rintro ⟨hc, -, -⟩; exact absurd hc (by decide))),
          arriving_zero (hdz 2 _ _ (by rintro ⟨hc, -, -⟩; exact absurd hc (by decide))),
          arriving_zero (hdz 4 _ _ (by rintro ⟨hc, -, -⟩; exact absurd hc (by decide)))]
      omega
    · unfold incoming
      rw [harr_qd,
          arriving_zero (hdz 1 _ _ (by rintro ⟨hc, -, -⟩; exact absurd hc (by decide))),
          arriving_zero (hdz 2 _ _ (by rintro ⟨hc, -, -⟩; exact absurd hc (by decide))),
          arriving_zero (hdz 3 _ _ (by rintro ⟨hc, -, -⟩; exact absurd hc (by decide)))]
      omega
  have hE1p : energyAfterArrivals T extra E H W ks 250 i j = E i j := by
    unfold energyAfterArrivals destUpdated
    rw [hin_p]
    unfold satAdd
    omega
  have hE1q : energyAfterArrivals T extra E H W ks 250 (i + (delta d).1) (j + (delta d).2)
      = if 250 < E i j then E i j / 2 else E i j := by
    unfold energyAfterArrivals destUpdated
    rw [hin_q, hE0q]
    unfold satAdd
    split_ifs <;> omega
  have hsum_pos_p : 0 < dmaskSum T (clearance extra E) E H W ks i j := by
    unfold dmaskSum
    interval_cases d <;> omega
  have hsum_zero : ∀ a b, ¬(a = i ∧ b = j) →
      dmaskSum T (clearance extra E) E H W ks a b = 0 := by
    intro a b hab
    unfold dmaskSum
    rw [hdz 1 a b (fun h => hab ⟨h.2.1, h.2.2⟩), hdz 2 a b (fun h => hab ⟨h.2.1, h.2.2⟩),
        hdz 3 a b (fun h => hab ⟨h.2.1, h.2.2⟩), hdz 4 a b (fun h => hab ⟨h.2.1, h.2.2⟩)]
  have hme_p : moveEnergy T extra E H W ks 250 i j
      = if E i j ≤ 250 then 0 else E i j / 4 := by
    by_cases hle : E i j ≤ 250
    · rw [if_pos hle]
      unfold moveEnergy
      rw [if_pos ⟨hsum_pos_p, hle⟩]
    · rw [if_neg hle]
      unfold moveEnergy
      rw [if_neg (fun hv => hle hv.2), if_pos ⟨hsum_pos_p, by omega⟩, hE1p]
  have hme_q : moveEnergy T extra E H W ks 250 (i + (delta d).1) (j + (delta d).2)
      = if 250 < E i j then E i j / 2 else E i j := by
    unfold moveEnergy
    rw [if_neg (fun hv => by
          have h9 := hv.1
          rw [hsum_zero _ _ hq_ne] at h9
          exact absurd h9 (lt_irrefl 0)),
        if_neg (fun ho => by
          have h9 := ho.1
          rw [hsum_zero _ _ hq_ne] at h9
          exact absurd h9 (lt_irrefl 0))]
    exact hE1q
  have hme_r : ∀ a b, ¬(a = i ∧ b = j) → ¬(a = i + (delta d).1 ∧ b = j + (delta d).2) →
      moveEnergy T extra E H W ks 250 a b = E a b := by
    intro a b hab habq
    unfold moveEnergy
    rw [if_neg (fun hv => by
          have h9 := hv.1
          rw [hsum_zero _ _ hab] at h9
          exact absurd h9 (lt_irrefl 0)),
        if_neg (fun ho => by
          have h9 := ho.1
          rw [hsum_zero _ _ hab] at h9
          exact absurd h9 (lt_irrefl 0))]
    unfold energyAfterArrivals destUpdated
    rw [incoming_zero (fun d2 h1 h4 => hdz d2 _ _ (by
      rintro ⟨hdd, h5, h6⟩
      subst hdd
      exact habq ⟨by omega, by omega⟩))]
    rw [hone a b hab]
    unfold satAdd
    omega
  refine ⟨fun hle => ⟨?_, ?_, ?_⟩, fun hgt => ⟨?_, ?_⟩⟩
  · rw [hme_p, if_pos hle]
  · rw [hme_q, if_neg (by omega)]
  · unfold gridSum
    have hc1 : ((i.toNat : Int)) = i := Int.toNat_of_nonneg hin.1
    have hc2 : ((j.toNat : Int)) = j := Int.toNat_of_nonneg hin.2.2.1
    have hc3 : (((i + (delta d).1).toNat : Int)) = i + (delta d).1 :=
      Int.toNat_of_nonneg hqin.1
    have hc4 : (((j + (delta d).2).toNat : Int)) = j + (delta d).2 :=
      Int.toNat_of_nonneg hqin.2.2.1
    have hp : (i.toNat, j.toNat) ∈ Finset.range H ×ˢ Finset.range W := by
      rw [Finset.mem_product, Finset.mem_range, Finset.mem_range]
      have h1 := hin.2.1
      have h2 := hin.2.2.2
      constructor <;> omega
    have hq : ((i + (delta d).1).toNat, (j + (delta d).2).toNat)
        ∈ Finset.range H ×ˢ Finset.range W := by
      rw [Finset.mem_product, Finset.mem_range, Finset.mem_range]
      have h1 := hqin.2.1
      have h2 := hqin.2.2.2
      constructor <;> omega
    have hpq : (i.toNat, j.toNat) ≠ ((i + (delta d).1).toNat, (j + (delta d).2).toNat) := by
      intro hc
      have h5 := congrArg Prod.fst hc
      have h6 := congrArg Prod.snd hc
      simp only at h5 h6
      exact delta_not_zero hd1 hd4 ⟨by omega, by omega⟩
    refine sum_congr_two_points _ _ _ _ hp hq hpq ?_ ?_
    · intro x hx hxp hxq
      refine hme_r (x.1 : Int) (x.2 : Int) ?_ ?_
      · rintro ⟨h5, h6⟩
        refine hxp ?_
        have e5 : x.1 = i.toNat := by omega
        have e6 : x.2 = j.toNat := by omega
        rw [Prod.ext_iff]
        exact ⟨e5, e6⟩
      · rintro ⟨h5, h6⟩
        refine hxq ?_
        have e5 : x.1 = (i + (delta d).1).toNat := by omega
        have e6 : x.2 = (j + (delta d).2).toNat := by omega
        rw [Prod.ext_iff]
        exact ⟨e5, e6⟩
    · show moveEnergy T extra E H W ks 250 (i.toNat : Int) (j.toNat : Int)
          + moveEnergy T extra E H W ks 250 ((i + (delta d).1).toNat : Int)
              ((j + (delta d).2).toNat : Int)
        = E (i.toNat : Int) (j.toNat : Int)
          + E ((i + (delta d).1).toNat : Int) ((j + (delta d).2).toNat : Int)
      rw [hc1, hc2, hc3, hc4, hme_p, if_pos hle, hme_q, if_neg (by omega), hE0q]
      omega
  · rw [hme_q, if_pos hgt]
  · rw [hme_p, if_neg (by omega)]

/-- Lone mover with energy 252 — above the divide threshold — at the center
of a 3×3 grid. -/
def gE252 : Grid := fun a b => if a = 1 ∧ b = 1 then 252 else 0

/-- C2 counterexample: a dividing mover with energy 252 leaves 252 / 4 = 63
at the origin and writes 252 / 2 = 126 at the destination, so the post-move
total is 189, not the 126 + 126 = 252 the claimed half-plus-half split
predicts. -/
theorem c2_counterexample :
    moveEnergy gT50 [] gE252 3 3 1 250 1 1 = 63 ∧
    moveEnergy gT50 [] gE252 3 3 1 250 1 2 = 126 ∧
    63 + 126 ≠ 252 := by
  decide

/-- C2 witness: a lone mover with energy 10 moving east on a 3×3 grid is
exactly conserved. -/
theorem c2_move_division_witness :
    moveEnergy gT50 [] gE10 3 3 1 250 1 1 = 0 ∧
    moveEnergy gT50 [] gE10 3 3 1 250 1 2 = 10 ∧
    gridSum 3 3 (moveEnergy gT50 [] gE10 3 3 1 250) = gridSum 3 3 gE10 := by
  have h := (c2_move_division gT50 gE10 [] 3 3 1 1 1 2 (by decide) (by decide) (by decide)
    (by decide) (by decide) (by decide)
    (fun a b hab => by simp only [gE10]; rw [if_neg hab])
    (by decide) (by decide)).1 (by decide)
  exact ⟨h.1, h.2.1.trans (by decide), h.2.2⟩

lemma satAdd_le (a b : Nat) : satAdd a b ≤ 255 := by
  unfold satAdd
  omega

lemma destUpdated_le (T C E Econd F : Grid) (f : Nat → Nat) (H W ks thr : Nat) (i j : Int) :
    destUpdated T C E Econd F f H W ks thr i j ≤ 255 := by
  unfold destUpdated
  exact satAdd_le _ _

lemma herbMove_energy_eq (T : Grid) (extra : List Grid) (st : HerbFields) (H W ks thr : Nat) :
    (herbMove T extra st H W ks thr).energy = fun i j =>
      if vacatedAt T (clearance extra st.energy) st.energy H W ks thr i j then 0
      else if offspringAt T (clearance extra st.energy) st.energy H W ks thr i j
        then energyAfterArrivals T extra st.energy H W ks thr i j / 4
        else energyAfterArrivals T extra st.energy H W ks thr i j := rfl

lemma herbMove_oc_eq (T : Grid) (extra : List Grid) (st : HerbFields) (H W ks thr : Nat) :
    (herbMove T extra st H W ks thr).offspringCount = fun i j =>
      if vacatedAt T (clearance extra st.energy) st.energy H W ks thr i j then 0
      else destUpdated T (clearance extra st.energy) st.energy
        (energyAfterArrivals T extra st.energy H W ks thr) st.offspringCount
        (fun x => satAdd x 1) H W ks thr i j := rfl

/-- C1 counterexample: the lineage increment applied by the movement rule
(update_id) takes id_1 from 255 to 0 — a wrap, not a saturation. -/
theorem c1_counterexample :
    c1Ids 0 0 = 255 ∧ update_id c1Ids c1Ids 0 0 = 0 := by
  decide

/-- C1 amended: energy and scent arithmetic saturates into the uint8 range —
the outputs of eating, growth, germination, diffusion and the movement rule
all stay within 0..255 for in-range inputs — but the id-channel increments
are wrapping mod-256 uint8 additions, so the lineage increment at a
saturated counter yields 0 rather than sticking at 255. -/
theorem c1_saturation (eaterE eatenE pe seeds crowd fert rand E T s : Grid)
    (extra : List Grid) (mask : Option Grid) (st : HerbFields)
    (H W ks thr m loss godds codds n : Nat) (i j : Int)
    (h1 : eatenE i j ≤ 255) (h2 : seeds i j ≤ 255) :
    (∀ a b : Nat, satAdd a b ≤ 255) ∧
    (∀ a b : Nat, a ≤ 255 → satSub a b ≤ 255) ∧
    eat_eaten eaterE eatenE m i j ≤ 255 ∧
    eat_eater eaterE eatenE m loss i j ≤ 255 ∧
    grow pe godds crowd codds fert rand i j ≤ 255 ∧
    germinate_pe seeds pe godds rand i j ≤ 255 ∧
    germinate_seeds seeds pe godds rand i j ≤ 255 ∧
    diffuse_scent H W n E s mask i j ≤ 255 ∧
    moveEnergy T extra E H W ks thr i j ≤ 255 ∧
    (herbMove T extra st H W ks thr).energy i j ≤ 255 ∧
    (herbMove T extra st H W ks thr).offspringCount i j ≤ 255 ∧
    (herbMove T extra st H W ks thr).id0 i j ≤ 255 ∧
    (herbMove T extra st H W ks thr).id1 i j ≤ 255 ∧
    update_id c1Ids c1Ids 0 0 = 0 := by
  have hsat : ∀ a b : Nat, satAdd a b ≤ 255 := satAdd_le
  have hwrap : ∀ k : Nat, wrap8 k ≤ 255 := by
    intro k
    unfold wrap8
    omega
  refine ⟨hsat, ?_, ?_, ?_, ?_, ?_, ?_, ?_, ?_, ?_, ?_, ?_, ?_, by decide⟩
  · intro a b ha
    unfold satSub
    omega
  · unfold eat_eaten satSub
    split_ifs <;> omega
  · unfold eat_eater
    exact hsat _ _
  · unfold grow
    exact hsat _ _
  · unfold germinate_pe
    exact hsat _ _
  · unfold germinate_seeds satSub
    omega
  · unfold diffuse_scent
    rcases mask with - | mg
    · exact hsat _ _
    · show (if mg i j = 0 then satAdd _ _ else 0) ≤ 255
      split_ifs
      · exact hsat _ _
      · omega
  · unfold moveEnergy
    have he := destUpdated_le T (clearance extra E) E E E (fun x => x / 2) H W ks thr i j
    unfold energyAfterArrivals
    split_ifs <;> omega
  · rw [herbMove_energy_eq]
    have he := destUpdated_le T (clearance extra st.energy) st.energy st.energy st.energy
      (fun x => x / 2) H W ks thr i j
    show (if vacatedAt _ _ _ _ _ _ _ i j then 0 else _) ≤ 255
    unfold energyAfterArrivals
    split_ifs <;> omega
  · rw [herbMove_oc_eq]
    have he := destUpdated_le T (clearance extra st.energy) st.energy
      (energyAfterArrivals T extra st.energy H W ks thr) st.offspringCount
      (fun x => satAdd x 1) H W ks thr i j
    show (if vacatedAt _ _ _ _ _ _ _ i j then 0 else _) ≤ 255
    split_ifs <;> omega
  · rw [herbMove_id0_eq]
    have he := destUpdated_le T (clearance extra st.energy) st.energy
      (energyAfterArrivals T extra st.energy H W ks thr) st.id0
      (fun x => x) H W ks thr i j
    have hw := hwrap (destUpdated T (clearance extra st.energy) st.energy
      (energyAfterArrivals T extra st.energy H W ks thr) st.id0
      (fun x => x) H W ks thr i j + 1)
    show (if vacatedAt _ _ _ _ _ _ _ i j then 0 else _) ≤ 255
    split_ifs <;> omega
  · rw [herbMove_id1_eq]
    have he := destUpdated_le T (clearance extra st.energy) st.energy
      (energyAfterArrivals T extra st.energy H W ks thr) st.id1
      (fun x => x) H W ks thr i j
    have hw := hwrap (destUpdated T (clearance extra st.energy) st.energy
      (energyAfterArrivals T extra st.energy H W ks thr) st.id1
      (fun x => x) H W ks thr i j + 1)
    show (if vacatedAt _ _ _ _ _ _ _ i j then 0 else update_id _ _ i j) ≤ 255
    unfold update_id
    split_ifs <;> omega

/-- C1 witness: applying the saturation bounds at the all-zero world, with
the wrap of the saturated id counter. -/
theorem c1_saturation_witness :
    eat_eaten zeroGrid zeroGrid 16 0 0 ≤ 255 ∧ update_id c1Ids c1Ids 0 0 = 0 := by
  have h := c1_saturation zeroGrid zeroGrid zeroGrid zeroGrid zeroGrid zeroGrid zeroGrid
    zeroGrid zeroGrid zeroGrid [] none c5State 3 3 5 250 16 4 255 25 1 0 0
    (by decide) (by decide)
  exact ⟨h.2.2.1, h.2.2.2.2.2.2.2.2.2.2.2.2.2⟩
